import Mathlib

/-!
# Classified-ad server (`index.js`)

A shallow embedding of the request handlers of the classified-ad server:
the `POST /submit` pipeline (upload middleware, validator chain, quota check
and insert) and the three listing routes `GET /`, `GET /ads`, `GET /search`.

JavaScript strings are lists of characters.  The Ad collection is a list of
records in insertion order; `countDocuments` and `save` are total on it.
-/

namespace FreeAd

/-- JavaScript string values. -/
abbrev Str := List Char

/-- The apostrophe character. -/
def apostrophe : Char := Char.ofNat 39

/-- The grave accent character. -/
def graveAccent : Char := Char.ofNat 96

/-! ## Ad schema and model (`adSchema`) -/

/-- One document of the `Ad` collection: `phone`, `city`, `address`, `category`,
`imageUrl` and `createdAt`.  `address` may be missing from a document. -/
structure Ad where
  phone : Str
  city : Str
  address : Option Str
  category : Str
  imageUrl : Str
  createdAt : Nat
  deriving DecidableEq, Repr

/-- The Ad collection. -/
abbrev Repo := List Ad

/-- The query `Ad.countDocuments(\x7b phone \x7d)`: the number of documents whose
`phone` equals the given string. -/
def countDocuments (repo : Repo) (phone : Str) : Nat :=
  repo.countP (fun ad => decide (ad.phone = phone))

/-- The effect of `newAd.save()`: the document is appended to the collection. -/
def save (repo : Repo) (newAd : Ad) : Repo :=
  repo ++ [newAd]

/-! ## `escapeHtml` -/

/-- The object literal `escapeMap` of `escapeHtml`. -/
def escapeMap : List (Char × Str) :=
  [ ('&', "&amp;".toList),
    ('<', "&lt;".toList),
    ('>', "&gt;".toList),
    ('"', "&quot;".toList),
    (apostrophe, "&#039;".toList) ]

/-- The character class `[&<>"']` of the regular expression in `escapeHtml`. -/
def escapeClass (c : Char) : Bool :=
  c == '&' || c == '<' || c == '>' || c == '"' || c == apostrophe

/-- The call `str.replace(/[...]/g, callback)` for a one-character class: every
character of the class is replaced by the callback's result, every other
character is kept. -/
def replaceClass (cls : Char → Bool) (callback : Char → Str) : Str → Str
  | [] => []
  | c :: cs => (if cls c then callback c else [c]) ++ replaceClass cls callback cs

/-- The function `escapeHtml(text)`.  A key missing from `escapeMap` would make
the callback return `undefined`, which `replace` inserts as text. -/
def escapeHtml (text : Str) : Str :=
  replaceClass escapeClass (fun char => (escapeMap.lookup char).getD "undefined".toList) text

/-- The entity the specification assigns to a character: `&amp;`, `&lt;`, `&gt;`,
`&quot;`, `&#039;` for the five special characters, the character itself
otherwise. -/
def entityOfSpec (c : Char) : Str :=
  if c = '&' then "&amp;".toList
  else if c = '<' then "&lt;".toList
  else if c = '>' then "&gt;".toList
  else if c = '"' then "&quot;".toList
  else if c = apostrophe then "&#039;".toList
  else [c]

/-- The specification of escaping: standard entity substitution, character by
character. -/
def escapeHtmlSpec (s : Str) : Str :=
  s.flatMap entityOfSpec

/-! ## The validator chain of `POST /submit` -/

/-- The characters matched by `\s` in a JavaScript regular expression. -/
def isWhitespace (c : Char) : Bool :=
  let n := c.toNat
  n == 9 || n == 10 || n == 11 || n == 12 || n == 13 || n == 32 || n == 160 ||
  n == 5760 || (8192 ≤ n && n ≤ 8202) || n == 8232 || n == 8233 || n == 8239 ||
  n == 8287 || n == 12288 || n == 65279

/-- Modelled from the spec: the sanitizer `trim()` of the validator chain is
library code outside `src/`; "trimmed" is read as removing leading and trailing
whitespace (the characters of `\s`). -/
def trim (s : Str) : Str :=
  ((s.dropWhile isWhitespace).reverse.dropWhile isWhitespace).reverse

/-- The call `str.replace(/c/g, rep)` for a single literal character `c`. -/
def replaceAll (c : Char) (rep : Str) : Str → Str
  | [] => []
  | x :: xs => (if x = c then rep else [x]) ++ replaceAll c rep xs

/-- Modelled from the spec: the sanitizer `escape()` of the validator chain is
library code outside `src/`; "HTML-entity-escaped" is read as the library's
successive replacements of `&`, `"`, `'`, `<`, `>`, `/`, `\` and the grave accent
by `&amp;`, `&quot;`, `&#x27;`, `&lt;`, `&gt;`, `&#x2F;`, `&#x5C;`, `&#96;`. -/
def escape (s : Str) : Str :=
  replaceAll graveAccent "&#96;".toList
    (replaceAll '\\' "&#x5C;".toList
      (replaceAll '/' "&#x2F;".toList
        (replaceAll '>' "&gt;".toList
          (replaceAll '<' "&lt;".toList
            (replaceAll apostrophe "&#x27;".toList
              (replaceAll '"' "&quot;".toList
                (replaceAll '&' "&amp;".toList s)))))))

/-- The characters `escape()` rewrites at write time. -/
def escapedAtWrite (c : Char) : Bool :=
  c == '&' || c == '"' || c == apostrophe || c == '<' || c == '>' || c == '/' ||
  c == '\\' || c == graveAccent

/-- The text fields of the multipart form.  `phone`, `city` and `group` reach the
sanitizers as strings (an absent field as the empty string); `address` is
`optional()` and is skipped when absent. -/
structure Form where
  phone : Str
  city : Str
  address : Option Str
  group : Str
  deriving DecidableEq, Repr

/-- The sanitizers of the validator chain applied to `req.body`:
`body('phone').trim()`, `body('city').trim().escape()`,
`body('address').optional().trim().escape()`, `body('group').trim().escape()`. -/
def sanitize (body : Form) : Form :=
  { phone := trim body.phone
    city := escape (trim body.city)
    address := body.address.map (fun a => escape (trim a))
    group := escape (trim body.group) }

/-! ## The upload middleware (`multer`) -/

/-- The file part of the multipart request, as `multer` sees it. -/
structure UploadedFile where
  originalname : Str
  mimetype : Str
  size : Nat
  deriving DecidableEq, Repr

/-- The scanning state of `path.extname`: `startDot`, `startPart`, `end`,
`matchedSlash`, `preDotState`, and whether the loop has hit `break`. -/
structure ExtState where
  startDot : Option Nat
  startPart : Nat
  endIdx : Option Nat
  matchedSlash : Bool
  preDotState : Int
  stopped : Bool
  deriving DecidableEq, Repr

/-- One iteration of the backwards loop of `path.extname` at index `i` with
character `code`. -/
def extnameStep (st : ExtState) (i : Nat) (code : Char) : ExtState :=
  if st.stopped then st
  else if code = '/' then
    if !st.matchedSlash then { st with startPart := i + 1, stopped := true }
    else st
  else
    let st1 : ExtState :=
      if st.endIdx = none then { st with matchedSlash := false, endIdx := some (i + 1) }
      else st
    if code = '.' then
      if st1.startDot = none then { st1 with startDot := some i }
      else if st1.preDotState ≠ 1 then { st1 with preDotState := 1 }
      else st1
    else if st1.startDot ≠ none then { st1 with preDotState := -1 }
    else st1

/-- The loop of `path.extname` over the characters at indices `n-1, ..., 0`,
given here as the reversed string. -/
def extnameLoop : List Char → ExtState → ExtState
  | [], st => st
  | code :: rest, st => extnameLoop rest (extnameStep st rest.length code)

/-- The function `path.extname(path)` (POSIX flavour). -/
def extname (path : Str) : Str :=
  let st := extnameLoop path.reverse
    { startDot := none, startPart := 0, endIdx := none, matchedSlash := true,
      preDotState := 0, stopped := false }
  match st.startDot, st.endIdx with
  | some startDot, some endIdx =>
    if st.preDotState = 0 ∨
        (st.preDotState = 1 ∧ startDot = endIdx - 1 ∧ startDot = st.startPart + 1) then []
    else (path.take endIdx).drop startDot
  | _, _ => []

/-- The method `toLowerCase()`, restricted to the ASCII letters: `A`-`Z` are
folded to `a`-`z` and every other character, non-ASCII letters included, is
left unchanged. -/
def toLowerCase (s : Str) : Str := s.map Char.toLower

/-- The method `toUpperCase()`, restricted to the ASCII letters: `a`-`z` are
folded to `A`-`Z` and every other character is left unchanged. -/
def toUpperCase (s : Str) : Str := s.map Char.toUpper

/-- Whether `needle` occurs in `s` as a contiguous substring. -/
def includes (needle : Str) : Str → Bool
  | [] => needle.isEmpty
  | c :: cs => needle.isPrefixOf (c :: cs) || includes needle cs

/-- The test `allowedTypes.test(s)` for `allowedTypes = /jpeg|jpg|png|gif/`: the
expression is not anchored, so it succeeds when one of the four alternatives
occurs anywhere in `s`. -/
def allowedTypesTest (s : Str) : Bool :=
  includes "jpeg".toList s || includes "jpg".toList s || includes "png".toList s ||
    includes "gif".toList s

/-- The `fileFilter` option of `multer`: `true` when the callback is called as
`cb(null, true)`, `false` when it is called with the error. -/
def fileFilter (file : UploadedFile) : Bool :=
  let extName := allowedTypesTest (toLowerCase (extname file.originalname))
  let mimeType := allowedTypesTest file.mimetype
  extName && mimeType

/-- The message of the error passed by `fileFilter`. -/
def fileFilterError : Str := "Only image files (jpeg, jpg, png, gif) are allowed!".toList

/-- The `limits.fileSize` option: `2 * 1024 * 1024` bytes. -/
def fileSizeLimit : Nat := 2 * 1024 * 1024

/-- The collaborators of a request that are not part of the server's source:
the predicate behind `isMobilePhone()`, the Cloudinary storage engine (which
answers with an error message or with the stored file's `path`), the rendering
`JSON.stringify(errors.array())` of a rejected body, and the clock `Date.now`. -/
structure Env where
  isMobilePhone : Str → Bool
  handleFile : UploadedFile → Except Str Str
  stringifyErrors : Form → Str
  now : Nat

/-- The call `upload.single('image')`: the error message handed to the callback,
or `req.file.path` when a file was attached and stored (`none` without a file). -/
def uploadSingle (env : Env) (file : Option UploadedFile) : Except Str (Option Str) :=
  match file with
  | none => .ok none
  | some f =>
    if !fileFilter f then .error fileFilterError
    else if f.size > fileSizeLimit then .error "File too large".toList
    else
      match env.handleFile f with
      | .error msg => .error msg
      | .ok path => .ok (some path)

/-! ## `POST /submit` -/

/-- An HTTP response: status code and body. -/
structure Response where
  status : Nat
  body : Str
  deriving DecidableEq, Repr

/-- A `POST /submit` request: the form fields and the optional `image` file. -/
structure SubmitRequest where
  body : Form
  file : Option UploadedFile
  deriving DecidableEq, Repr

/-- The response of the upload-error branch. -/
def uploadErrorResponse (msg : Str) : Response :=
  { status := 200
    body := "<h2>Upload Error: ".toList ++ msg ++ "</h2><a href=\"/\">Go back</a>".toList }

/-- The response of the quota branch (`count >= 2`). -/
def limitReachedResponse : Response :=
  { status := 200
    body := "<h2>Limit reached: Only 2 ads allowed per phone number.</h2><a href=\"/\">Go back</a>".toList }

/-- The response sent after `newAd.save()`. -/
def submittedResponse : Response :=
  { status := 200
    body := "<h2>Ad submitted successfully!</h2><a href=\"/\">Go back</a>".toList }

/-- The document built by `new Ad(...)` in the handler; `createdAt` takes the
schema default `Date.now`. -/
def newAd (env : Env) (body : Form) (imagePath : Str) : Ad :=
  { phone := body.phone
    city := body.city
    address := body.address
    category := body.group
    imageUrl := imagePath
    createdAt := env.now }

/-- The last handler of `POST /submit`, run on the sanitized body: the validation
result, the count by phone, the quota branch and the insert. -/
def submitHandler (env : Env) (repo : Repo) (body : Form) (file : Option Str) :
    Response × Repo :=
  if !env.isMobilePhone body.phone then
    ({ status := 400, body := "Invalid input: ".toList ++ env.stringifyErrors body }, repo)
  else
    let imagePath := file.getD []
    let count := countDocuments repo body.phone
    if count ≥ 2 then (limitReachedResponse, repo)
    else (submittedResponse, save repo (newAd env body imagePath))

/-- The route `POST /submit`: upload middleware, validator chain, handler.
Returns the response and the collection afterwards. -/
def postSubmit (env : Env) (repo : Repo) (req : SubmitRequest) : Response × Repo :=
  match uploadSingle env req.file with
  | .error msg => (uploadErrorResponse msg, repo)
  | .ok file => submitHandler env repo (sanitize req.body) file

/-- One step of the sequential system: some `POST /submit` request is served. -/
def Step (repo repo' : Repo) : Prop :=
  ∃ (env : Env) (req : SubmitRequest), (postSubmit env repo req).2 = repo'

/-- The quota invariant: every phone value occurs in at most 2 documents. -/
def PhoneQuota (repo : Repo) : Prop :=
  ∀ phone : Str, countDocuments repo phone ≤ 2

/-! ## Listing routes: shared pieces -/

/-- The expansion of the `$` patterns of a replacement string in
`String.prototype.replace` with a string pattern (no capture groups): `$$`, `$&`,
the dollar followed by a grave accent (text before the match) and the dollar
followed by an apostrophe (text after the match).  The flag tells that the
previous character was an unconsumed `$`. -/
def getSubstitution (matched before after : Str) : Bool → Str → Str
  | false, [] => []
  | true, [] => ['$']
  | false, c :: rest =>
    if c = '$' then getSubstitution matched before after true rest
    else c :: getSubstitution matched before after false rest
  | true, c :: rest =>
    if c = '$' then '$' :: getSubstitution matched before after false rest
    else if c = '&' then matched ++ getSubstitution matched before after false rest
    else if c = graveAccent then before ++ getSubstitution matched before after false rest
    else if c = apostrophe then after ++ getSubstitution matched before after false rest
    else '$' :: c :: getSubstitution matched before after false rest

/-- The text before and after the first occurrence of `pat` in a string. -/
def splitAtFirst (pat : Str) : Str → Option (Str × Str)
  | [] => if pat.isEmpty then some ([], []) else none
  | c :: cs =>
    if pat.isPrefixOf (c :: cs) then some ([], (c :: cs).drop pat.length)
    else (splitAtFirst pat cs).map (fun r => (c :: r.1, r.2))

/-- The call `html.replace(pat, rep)` with two strings: only the first occurrence
is replaced, and the replacement goes through `getSubstitution`. -/
def jsReplace (html pat rep : Str) : Str :=
  match splitAtFirst pat html with
  | none => html
  | some (before, after) => before ++ getSubstitution pat before after false rep ++ after

/-- The placeholder of a category in the template: `<!--ADS_` followed by the
upper-cased key and `-->`. -/
def marker (category : Str) : Str :=
  "<!--ADS_".toList ++ toUpperCase category ++ "-->".toList

/-- The property names an object literal inherits from `Object.prototype`. -/
def objectPrototypeKeys : List Str :=
  [ "constructor".toList, "__defineGetter__".toList, "__defineSetter__".toList,
    "hasOwnProperty".toList, "__lookupGetter__".toList, "__lookupSetter__".toList,
    "isPrototypeOf".toList, "propertyIsEnumerable".toList, "toString".toList,
    "valueOf".toList, "__proto__".toList, "toLocaleString".toList ]

/-- The object literals `groupedAds` and `grouped`: own keys in insertion order,
each holding an array. -/
abbrev Buckets (α : Type) := List (Str × List α)

/-- What the property read `grouped[category]` yields: the array of an own key, a
value inherited from `Object.prototype` (truthy, without a `push` method), or
`undefined`. -/
inductive Property (α : Type) where
  | own (items : List α)
  | inherited
  | undefined
  deriving DecidableEq, Repr

/-- The property read `grouped[category]`. -/
def getProperty {α : Type} (grouped : Buckets α) (category : Str) : Property α :=
  match grouped.lookup category with
  | some items => .own items
  | none => if category ∈ objectPrototypeKeys then .inherited else .undefined

/-- The statement `if (grouped[category]) grouped[category].push(item)`: arrays
are truthy, `undefined` is skipped, and an inherited value is truthy but calling
its missing `push` throws a `TypeError`. -/
def pushIfPresent {α : Type} (grouped : Buckets α) (category : Str) (item : α) :
    Except Str (Buckets α) :=
  match getProperty grouped category with
  | .own _ =>
    .ok (grouped.map (fun kv => if kv.1 = category then (kv.1, kv.2 ++ [item]) else kv))
  | .inherited => .error "TypeError: grouped[category].push is not a function".toList
  | .undefined => .ok grouped

/-- The loop `ads.forEach(ad => ...)` that fills the buckets with `item ad`, keyed
by `ad.category.toLowerCase()`; it stops at the first exception. -/
def fillBuckets {α : Type} (item : Ad → α) : List Ad → Buckets α → Except Str (Buckets α)
  | [], grouped => .ok grouped
  | ad :: rest, grouped =>
    match pushIfPresent grouped (toLowerCase ad.category) (item ad) with
    | .error e => .error e
    | .ok grouped' => fillBuckets item rest grouped'

/-- The empty buckets for a list of keys. -/
def emptyBuckets {α : Type} (keys : List Str) : Buckets α :=
  keys.map (fun k => (k, []))

/-! ## `GET /ads` -/

/-- The keys of `groupedAds` in `GET /ads`, in source order. -/
def adsKeys : List Str :=
  [ "clothing".toList, "sports".toList, "cosmetics".toList, "jewelry".toList,
    "food".toList, "electronics".toList, "medical".toList, "automobile".toList,
    "education".toList ]

/-- The per-ad fragment of `GET /ads`. -/
def adsFragment (ad : Ad) : Str :=
  "\n          <div class=\"ad\">\n            <img src=\"".toList ++ ad.imageUrl ++
  "\" />\n            <p><strong>Phone:</strong> ".toList ++ escapeHtml ad.phone ++
  "</p>\n            <p><strong>City:</strong> ".toList ++ escapeHtml ad.city ++
  "</p>\n            <p><strong>Address:</strong> ".toList ++ escapeHtml (ad.address.getD []) ++
  "</p>\n            <p><strong>Group:</strong> ".toList ++ escapeHtml ad.category ++
  "</p>\n          </div>\n        ".toList

/-- The string `adsHtml` built for one bucket of `GET /ads`. -/
def adsHtml (bucket : List Ad) : Str :=
  "<div style=\"width: 100%;\">".toList ++ bucket.flatMap adsFragment ++ "</div>".toList

/-- The loop `Object.keys(groupedAds).forEach(...)` of `GET /ads`. -/
def spliceAds (grouped : Buckets Ad) (html : Str) : Str :=
  grouped.foldl (fun acc kv => jsReplace acc (marker kv.1) (adsHtml kv.2)) html

/-- The route `GET /ads`, given the content of `template.html` (`none` when it
cannot be read) and the answer of `Ad.find().sort(\x7b createdAt: 1 \x7d)`. -/
def getAds (template : Option Str) (ads : List Ad) : Response :=
  match template with
  | none => { status := 500, body := "<h2>Failed to load ads</h2>".toList }
  | some html =>
    match fillBuckets id ads (emptyBuckets adsKeys) with
    | .error _ => { status := 500, body := "<h2>Failed to load ads</h2>".toList }
    | .ok groupedAds => { status := 200, body := spliceAds groupedAds html }

/-! ## `GET /` -/

/-- The keys of `grouped` in `GET /`, in source order. -/
def homeKeys : List Str :=
  [ "clothing".toList, "cosmetics".toList, "sports".toList, "jewelry".toList,
    "food".toList, "electronics".toList, "medical".toList, "automobile".toList,
    "education".toList ]

/-- The per-ad fragment of `GET /` (no category line). -/
def homeFragment (ad : Ad) : Str :=
  "\n        <div class=\"ad\">\n          <img src=\"".toList ++ ad.imageUrl ++
  "\" />\n          <p><strong>Phone:</strong> ".toList ++ escapeHtml ad.phone ++
  "</p>\n          <p><strong>City:</strong> ".toList ++ escapeHtml ad.city ++
  "</p>\n          <p><strong>Address:</strong> ".toList ++ escapeHtml (ad.address.getD []) ++
  "</p>\n        </div>\n      ".toList

/-- The method `array.join(sep)` on strings. -/
def join (sep : Str) : List Str → Str
  | [] => []
  | [x] => x
  | x :: y :: rest => x ++ sep ++ join sep (y :: rest)

/-- The loop `Object.keys(grouped).forEach(...)` of `GET /`. -/
def spliceHome (grouped : Buckets Str) (template : Str) : Str :=
  grouped.foldl (fun acc kv => jsReplace acc (marker kv.1) (join ['\n'] kv.2)) template

/-- The route `GET /`, given the content of `template.html` (`none` when it cannot
be read) and the answer of `Ad.find().sort(\x7b createdAt: -1 \x7d)`. -/
def getHome (template : Option Str) (ads : List Ad) : Response :=
  match template with
  | none => { status := 500, body := "<h2>Failed to load homepage</h2>".toList }
  | some html =>
    match fillBuckets homeFragment ads (emptyBuckets homeKeys) with
    | .error _ => { status := 500, body := "<h2>Failed to load homepage</h2>".toList }
    | .ok grouped => { status := 200, body := spliceHome grouped html }

/-! ## `GET /search` -/

/-- What a request handler leaves behind: a response that was sent, or an
exception that escaped the handler (nothing is sent). -/
inductive Outcome where
  | sent (response : Response)
  | uncaught (error : Str)
  deriving DecidableEq, Repr

/-- One item of a compiled pattern: a literal character or the wildcard `.`. -/
inductive PatternItem where
  | char (c : Char)
  | anyChar
  deriving DecidableEq, Repr

/-- The characters with a syntactic role in a regular expression pattern. -/
def isSyntaxCharacter (c : Char) : Bool :=
  c == '^' || c == '$' || c == '\\' || c == '.' || c == '*' || c == '+' || c == '?' ||
  c == '(' || c == ')' || c == '[' || c == ']' || c == '\x7b' || c == '\x7d' || c == '|'

/-- The pattern text spliced between `^` and `$` in `new RegExp(...)`, read as a
pattern.  Ordinary characters stand for themselves and `.` is the wildcard; a text
using any other syntax character is outside this embedding (`none`). -/
def compileTerm : Str → Option (List PatternItem)
  | [] => some []
  | c :: cs =>
    if c = '.' then (compileTerm cs).map (fun items => PatternItem.anyChar :: items)
    else if isSyntaxCharacter c then none
    else (compileTerm cs).map (fun items => PatternItem.char c :: items)

/-- The line terminators, which `.` does not match. -/
def isLineTerminator (c : Char) : Bool :=
  c.toNat == 10 || c.toNat == 13 || c.toNat == 8232 || c.toNat == 8233

/-- Whether a pattern item matches a character under the flag `i` (letter case
is ignored, on the ASCII letters). -/
def itemMatches : PatternItem → Char → Bool
  | .char c, d => c.toLower == d.toLower
  | .anyChar, d => !isLineTerminator d

/-- Whether the anchored expression `^items$` matches the whole string. -/
def matchesWhole : List PatternItem → Str → Bool
  | [], [] => true
  | item :: items, d :: ds => itemMatches item d && matchesWhole items ds
  | _, _ => false

/-- The per-ad fragment of `GET /search`. -/
def searchFragment (ad : Ad) : Str :=
  "\n          <div class=\"ad\">\n            <img src=\"".toList ++ ad.imageUrl ++
  "\" />\n            <p><strong>Phone:</strong> ".toList ++ escapeHtml ad.phone ++
  "</p>\n            <p><strong>City:</strong> ".toList ++ escapeHtml ad.city ++
  "</p>\n            <p><strong>Address:</strong> ".toList ++ escapeHtml (ad.address.getD []) ++
  "</p>\n            <p><strong>Group:</strong> ".toList ++ escapeHtml ad.category ++
  "</p>\n          </div>\n        ".toList

/-- The header of the search result. -/
def searchHeader (searchedCity : Str) : Str :=
  "<h2>Results for \"".toList ++ escapeHtml searchedCity ++ "\"</h2>".toList

/-- The string `resultHtml` of `GET /search`. -/
def resultHtml (searchedCity : Str) (ads : List Ad) : Str :=
  searchHeader searchedCity ++
    (if ads.length > 0 then ads.flatMap searchFragment
     else "<p>Sorry, there are no ads from this city.</p>".toList)

/-- The ads selected by `Ad.find(\x7b city: new RegExp(...) \x7d)` for a compiled
pattern, in the collection's order. -/
def findByCity (items : List PatternItem) (repo : Repo) : List Ad :=
  repo.filter (fun ad => matchesWhole items ad.city)

/-- The route `GET /search`, given the content of `template.html`, the collection
and the query parameter `city` (`none` when absent).  The outer `none` marks a
search term outside the pattern language of `compileTerm`.  Reading
`req.query.city.toLowerCase()` happens before the `try` block. -/
def getSearch (template : Option Str) (repo : Repo) (city : Option Str) : Option Outcome :=
  match city with
  | none =>
    some (.uncaught
      "TypeError: Cannot read properties of undefined (reading 'toLowerCase')".toList)
  | some c =>
    let searchedCity := toLowerCase c
    match compileTerm searchedCity with
    | none => none
    | some items =>
      let ads := findByCity items repo
      match template with
      | none => some (.sent { status := 500, body := "<h2>Search failed</h2>".toList })
      | some html =>
        some (.sent { status := 200
                      body := jsReplace html "<!--ADS_CITY_SEARCH-->".toList
                        (resultHtml searchedCity ads) })

/-- Equality of two strings up to the case of ASCII letters. -/
def eqIgnoreCase (a b : Str) : Prop :=
  toLowerCase a = toLowerCase b

/-! ## Layouts named by the specification -/

/-- The layout of a per-ad fragment with a category line, as a function of the
image locator and of the texts placed after `Phone:`, `City:`, `Address:` and
`Group:`. -/
def adLayout (image phone city address group : Str) : Str :=
  "\n          <div class=\"ad\">\n            <img src=\"".toList ++ image ++
  "\" />\n            <p><strong>Phone:</strong> ".toList ++ phone ++
  "</p>\n            <p><strong>City:</strong> ".toList ++ city ++
  "</p>\n            <p><strong>Address:</strong> ".toList ++ address ++
  "</p>\n            <p><strong>Group:</strong> ".toList ++ group ++
  "</p>\n          </div>\n        ".toList

/-- The layout of a per-ad fragment of the home page, as a function of the image
locator and of the texts placed after `Phone:`, `City:` and `Address:`. -/
def homeLayout (image phone city address : Str) : Str :=
  "\n        <div class=\"ad\">\n          <img src=\"".toList ++ image ++
  "\" />\n          <p><strong>Phone:</strong> ".toList ++ phone ++
  "</p>\n          <p><strong>City:</strong> ".toList ++ city ++
  "</p>\n          <p><strong>Address:</strong> ".toList ++ address ++
  "</p>\n        </div>\n      ".toList

/-- The text `<script>`. -/
def scriptTag : Str := "<script>".toList

/-- The text `&lt;script&gt;`. -/
def escapedScriptTag : Str := "&lt;script&gt;".toList

/-- The nine category keys of the specification. -/
def knownCategories : List Str :=
  [ "clothing".toList, "sports".toList, "cosmetics".toList, "jewelry".toList,
    "food".toList, "electronics".toList, "medical".toList, "automobile".toList,
    "education".toList ]

/-- The ads of a list whose lower-cased category is the given key, in the order
of the list. -/
def adsOfCategory (ads : List Ad) (key : Str) : List Ad :=
  ads.filter (fun ad => decide (toLowerCase ad.category = key))

/-- The ads of a list whose lower-cased category is one of the nine keys. -/
def knownAds (ads : List Ad) : List Ad :=
  ads.filter (fun ad => decide (toLowerCase ad.category ∈ knownCategories))

/-- The extensions the specification allows for an uploaded image. -/
def allowedExtensions : List Str :=
  [ ".jpeg".toList, ".jpg".toList, ".png".toList, ".gif".toList ]

/-! ## Sample data -/

/-- A sample environment: phones are accepted when they start with `+`, the
storage engine answers with a fixed locator. -/
def sampleEnv : Env :=
  { isMobilePhone := fun p => p.head? == some '+'
    handleFile := fun _ => .ok "https://res.cloudinary.com/demo/a.png".toList
    stringifyErrors := fun _ => "[]".toList
    now := 1000 }

/-- A stored ad with the given phone, city and category. -/
def sampleAd (phone city category : String) : Ad :=
  { phone := phone.toList, city := city.toList, address := none,
    category := category.toList, imageUrl := [], createdAt := 1 }

/-- A submission without a file. -/
def sampleRequest (phone city group : String) : SubmitRequest :=
  { body := { phone := phone.toList, city := city.toList, address := none,
              group := group.toList }
    file := none }

/-- A template holding the `food` placeholder only. -/
def foodTemplate : Str := "<main><!--ADS_FOOD--></main>".toList

/-- A template holding the search placeholder only. -/
def searchTemplate : Str := "<main><!--ADS_CITY_SEARCH--></main>".toList

/-- A stored ad whose city is the text `<script>`. -/
def scriptAd : Ad :=
  { phone := "+15551234567".toList, city := "<script>".toList, address := none,
    category := "Food".toList, imageUrl := [], createdAt := 2 }

/-- A stored ad from Boston, older than `scriptAd`. -/
def bostonAd : Ad :=
  { phone := "+15557654321".toList, city := "Boston".toList, address := none,
    category := "food".toList, imageUrl := [], createdAt := 1 }

/-- The ad stored for a submission whose city is `$$`. -/
def dollarCityAd : Ad :=
  { phone := "+15551234567".toList, city := "$$".toList, address := none,
    category := "food".toList, imageUrl := [], createdAt := 1000 }

/-- The ad stored for a submission whose address is `$$`. -/
def dollarAddressAd : Ad :=
  { phone := "+15551234567".toList, city := "NYC".toList, address := some "$$".toList,
    category := "food".toList, imageUrl := [], createdAt := 1000 }

/-! ## Theorems: `POST /submit` -/

theorem countDocuments_save (repo : Repo) (ad : Ad) (phone : Str) :
    countDocuments (save repo ad) phone =
      countDocuments repo phone + (if ad.phone = phone then 1 else 0) := by
  unfold countDocuments save
  rw [List.countP_append]
  by_cases h : ad.phone = phone <;> simp [List.countP_cons, h]

theorem submitHandler_preserves_quota (env : Env) (repo : Repo) (body : Form)
    (file : Option Str) (h : PhoneQuota repo) :
    PhoneQuota (submitHandler env repo body file).2 := by
  unfold submitHandler
  by_cases hv : env.isMobilePhone body.phone = true
  · by_cases hc : countDocuments repo body.phone ≥ 2
    · simpa [hv, hc] using h
    · simp only [hv, hc, Bool.not_true, if_false, Bool.false_eq_true]
      intro phone
      rw [countDocuments_save]
      by_cases hp : (newAd env body (file.getD [])).phone = phone
      · have hp' : body.phone = phone := hp
        subst hp'
        simp only [hp, if_true]
        omega
      · simp only [hp, if_false]
        exact h phone
  · simpa [hv] using h

theorem postSubmit_preserves_quota (env : Env) (repo : Repo) (req : SubmitRequest)
    (h : PhoneQuota repo) : PhoneQuota (postSubmit env repo req).2 := by
  unfold postSubmit
  cases uploadSingle env req.file with
  | error msg => exact h
  | ok file => exact submitHandler_preserves_quota env repo _ file h

theorem postSubmit_accepted (env : Env) (repo : Repo) (req : SubmitRequest)
    (file : Option Str)
    (hupload : uploadSingle env req.file = .ok file)
    (hvalid : env.isMobilePhone (trim req.body.phone) = true)
    (hcount : countDocuments repo (trim req.body.phone) < 2) :
    postSubmit env repo req =
        (submittedResponse,
          repo ++ [{ phone := trim req.body.phone
                     city := escape (trim req.body.city)
                     address := req.body.address.map (fun a => escape (trim a))
                     category := escape (trim req.body.group)
                     imageUrl := file.getD []
                     createdAt := env.now }]) := by
  have hc : ¬ (2 ≤ countDocuments repo (trim req.body.phone)) := by omega
  simp [postSubmit, hupload, submitHandler, sanitize, hvalid, hc, save, newAd]

/-- C1: a submission that passes the upload stage and validation and whose
trimmed phone already has 2 or more ads is answered with the "Limit reached"
response, and the collection is unchanged. -/
theorem postSubmit_limit_reached (env : Env) (repo : Repo) (req : SubmitRequest)
    (file : Option Str)
    (hupload : uploadSingle env req.file = .ok file)
    (hvalid : env.isMobilePhone (trim req.body.phone) = true)
    (hcount : 2 ≤ countDocuments repo (trim req.body.phone)) :
    postSubmit env repo req = (limitReachedResponse, repo) := by
  simp [postSubmit, hupload, submitHandler, sanitize, hvalid, hcount]

theorem postSubmit_limit_reached_witness :
    postSubmit sampleEnv
        [sampleAd "+15551234567" "NYC" "food", sampleAd "+15551234567" "Boston" "food"]
        (sampleRequest " +15551234567" "Paris" "food")
      = (limitReachedResponse,
          [sampleAd "+15551234567" "NYC" "food", sampleAd "+15551234567" "Boston" "food"]) :=
  postSubmit_limit_reached sampleEnv _ (sampleRequest " +15551234567" "Paris" "food") none
    (by rfl) (by decide) (by decide)

/-- C2 as stated fails: for the valid submission with city `a&b` on the empty
collection, the stored city is `a&amp;b`, not the submitted city. -/
theorem postSubmit_stores_submitted_fields_counterexample :
    ¬ (∀ (env : Env) (repo : Repo) (req : SubmitRequest) (file : Option Str),
        uploadSingle env req.file = .ok file →
        env.isMobilePhone (trim req.body.phone) = true →
        countDocuments repo (trim req.body.phone) < 2 →
        ∃ ad : Ad, postSubmit env repo req = (submittedResponse, repo ++ [ad]) ∧
          ad.phone = req.body.phone ∧ ad.city = req.body.city ∧
          ad.address = req.body.address ∧ ad.category = req.body.group ∧
          ad.imageUrl = file.getD []) := by
  intro h
  obtain ⟨ad, hpost, -, hcity, -⟩ :=
    h sampleEnv [] (sampleRequest "+15551234567" "a&b" "food") none (by rfl) (by decide)
      (by decide)
  have hrepo := congrArg Prod.snd hpost
  have hstored : (postSubmit sampleEnv [] (sampleRequest "+15551234567" "a&b" "food")).2
      = [{ phone := "+15551234567".toList, city := "a&amp;b".toList, address := none,
           category := "food".toList, imageUrl := [], createdAt := 1000 }] := by decide
  rw [hstored] at hrepo
  simp only [List.nil_append, List.cons.injEq, and_true] at hrepo
  rw [← hrepo] at hcity
  revert hcity
  decide

/-- C2, amended: a submission that passes the upload stage and validation and
whose trimmed phone has 0 or 1 ads succeeds, and the collection afterwards is the
old collection followed by exactly one new ad, whose phone is the trimmed phone,
whose city and category are the trimmed and entity-escaped city and group, whose
address is the trimmed and entity-escaped address when one was submitted, and
whose imageUrl is the stored file's locator, or the empty string without a file. -/
theorem postSubmit_inserts_sanitized (env : Env) (repo : Repo) (req : SubmitRequest)
    (file : Option Str)
    (hupload : uploadSingle env req.file = .ok file)
    (hvalid : env.isMobilePhone (trim req.body.phone) = true)
    (hcount : countDocuments repo (trim req.body.phone) < 2) :
    postSubmit env repo req =
        (submittedResponse,
          repo ++ [{ phone := trim req.body.phone
                     city := escape (trim req.body.city)
                     address := req.body.address.map (fun a => escape (trim a))
                     category := escape (trim req.body.group)
                     imageUrl := file.getD []
                     createdAt := env.now }]) ∧
      (req.file = none → file.getD [] = []) ∧
      (∀ f, req.file = some f → env.handleFile f = .ok (file.getD [])) := by
  refine ⟨?_, ?_, ?_⟩
  · exact postSubmit_accepted env repo req file hupload hvalid hcount
  · intro hnone
    rw [hnone] at hupload
    simp only [uploadSingle, Except.ok.injEq] at hupload
    rw [← hupload]
    rfl
  · intro f hf
    rw [hf] at hupload
    simp only [uploadSingle] at hupload
    split at hupload
    · cases hupload
    · split at hupload
      · cases hupload
      · split at hupload
        · cases hupload
        · rename_i path hpath
          simp only [Except.ok.injEq] at hupload
          rw [← hupload, hpath]
          rfl

theorem postSubmit_inserts_sanitized_witness :
    postSubmit sampleEnv [sampleAd "+15551234567" "NYC" "food"]
        (sampleRequest "+15551234567" " a&b " "food") =
      (submittedResponse,
        [sampleAd "+15551234567" "NYC" "food",
         { phone := "+15551234567".toList, city := "a&amp;b".toList, address := none,
           category := "food".toList, imageUrl := [], createdAt := 1000 }]) :=
  (postSubmit_inserts_sanitized sampleEnv [sampleAd "+15551234567" "NYC" "food"]
    (sampleRequest "+15551234567" " a&b " "food") none (by rfl) (by decide) (by decide)).1

/-- C3: the quota invariant (every phone occurs in at most 2 ads) is preserved by
every finite sequence of `POST /submit` steps, whatever the requests are. -/
theorem phoneQuota_invariant (repo repo' : Repo) (hinit : PhoneQuota repo)
    (hrun : Relation.ReflTransGen Step repo repo') : PhoneQuota repo' := by
  induction hrun with
  | refl => exact hinit
  | tail _ hstep ih =>
    obtain ⟨env, req, rfl⟩ := hstep
    exact postSubmit_preserves_quota env _ req ih

theorem phoneQuota_invariant_witness :
    PhoneQuota (postSubmit sampleEnv [] (sampleRequest "+15551234567" "NYC" "food")).2 :=
  phoneQuota_invariant [] _ (fun _ => by simp [countDocuments])
    (Relation.ReflTransGen.single ⟨sampleEnv, sampleRequest "+15551234567" "NYC" "food", rfl⟩)

set_option maxRecDepth 100000

/-! ## Theorems: `escapeHtml` and the fragments -/

theorem escapeHtml_cons (c : Char) (cs : Str) :
    escapeHtml (c :: cs) = entityOfSpec c ++ escapeHtml cs := by
  show (if escapeClass c then (escapeMap.lookup c).getD "undefined".toList else [c])
      ++ escapeHtml cs = entityOfSpec c ++ escapeHtml cs
  congr 1
  by_cases h1 : c = '&'
  · subst h1; decide
  by_cases h2 : c = '<'
  · subst h2; decide
  by_cases h3 : c = '>'
  · subst h3; decide
  by_cases h4 : c = '"'
  · subst h4; decide
  by_cases h5 : c = apostrophe
  · subst h5; decide
  simp [escapeClass, entityOfSpec, h1, h2, h3, h4, h5]

theorem escapeHtml_eq_spec (s : Str) : escapeHtml s = escapeHtmlSpec s := by
  induction s with
  | nil => rfl
  | cons c cs ih => rw [escapeHtml_cons, ih]; rfl

theorem escapeHtml_append (a b : Str) : escapeHtml (a ++ b) = escapeHtml a ++ escapeHtml b := by
  induction a with
  | nil => rfl
  | cons c cs ih => rw [List.cons_append, escapeHtml_cons, escapeHtml_cons, ih, List.append_assoc]

theorem entityOfSpec_no_lt (c : Char) : '<' ∉ entityOfSpec c := by
  unfold entityOfSpec
  split
  · decide
  split
  · decide
  split
  · decide
  split
  · decide
  split
  · decide
  rename_i h _ _ _
  simp only [List.mem_singleton]
  exact fun e => h e.symm

theorem escapeHtml_no_lt (s : Str) : '<' ∉ escapeHtml s := by
  induction s with
  | nil => simp [escapeHtml, replaceClass]
  | cons c cs ih =>
    rw [escapeHtml_cons, List.mem_append]
    exact fun h => h.elim (entityOfSpec_no_lt c) ih

theorem escapeHtml_infix (t s : Str) (h : t <:+: s) : escapeHtml t <:+: escapeHtml s := by
  obtain ⟨a, b, rfl⟩ := h
  exact ⟨escapeHtml a, escapeHtml b, by simp [escapeHtml_append]⟩

theorem toLowerCase_infix (t s : Str) (h : t <:+: s) : toLowerCase t <:+: toLowerCase s := by
  obtain ⟨a, b, rfl⟩ := h
  exact ⟨toLowerCase a, toLowerCase b, by simp [toLowerCase]⟩

theorem escapedScriptTag_infix (s : Str) (h : scriptTag <:+: s) :
    escapedScriptTag <:+: escapeHtml s :=
  escapeHtml_infix scriptTag s h

theorem scriptTag_not_infix_escapeHtml (s : Str) : ¬ scriptTag <:+: escapeHtml s := by
  intro h
  have hmem : '<' ∈ scriptTag := by decide
  exact escapeHtml_no_lt s (h.subset hmem)

theorem infix_adLayout (t image phone city address group : Str)
    (h : t <:+: phone ∨ t <:+: city ∨ t <:+: address ∨ t <:+: group) :
    t <:+: adLayout image phone city address group := by
  have pre : ∀ x y : Str, x <:+: x ++ y := fun x y => (List.prefix_append x y).isInfix
  have suf : ∀ x y : Str, y <:+: x ++ y := fun x y => (List.suffix_append x y).isInfix
  unfold adLayout
  rcases h with h | h | h | h <;> refine h.trans ?_ <;>
    repeat (first | exact suf _ _ | refine List.IsInfix.trans ?_ (pre _ _))

theorem infix_homeLayout (t image phone city address : Str)
    (h : t <:+: phone ∨ t <:+: city ∨ t <:+: address) :
    t <:+: homeLayout image phone city address := by
  have pre : ∀ x y : Str, x <:+: x ++ y := fun x y => (List.prefix_append x y).isInfix
  have suf : ∀ x y : Str, y <:+: x ++ y := fun x y => (List.suffix_append x y).isInfix
  unfold homeLayout
  rcases h with h | h | h <;> refine h.trans ?_ <;>
    repeat (first | exact suf _ _ | refine List.IsInfix.trans ?_ (pre _ _))

theorem getSubstitution_of_no_dollar (matched before after rep : Str) (h : '$' ∉ rep) :
    getSubstitution matched before after false rep = rep := by
  induction rep with
  | nil => rfl
  | cons c cs ih =>
    have hc : c ≠ '$' := fun e => h (e ▸ List.mem_cons_self _ _)
    have hcs : '$' ∉ cs := fun e => h (List.mem_cons_of_mem _ e)
    simp only [getSubstitution, if_neg hc, ih hcs]

theorem splitAtFirst_sound (pat html before after : Str)
    (h : splitAtFirst pat html = some (before, after)) : html = before ++ pat ++ after := by
  induction html generalizing before with
  | nil =>
    unfold splitAtFirst at h
    split at h
    · rename_i he
      simp only [Option.some.injEq, Prod.mk.injEq] at h
      obtain ⟨rfl, rfl⟩ := h
      simpa using he
    · cases h
  | cons c cs ih =>
    unfold splitAtFirst at h
    split at h
    · rename_i hp
      simp only [Option.some.injEq, Prod.mk.injEq] at h
      obtain ⟨rfl, rfl⟩ := h
      obtain ⟨t, ht⟩ := List.isPrefixOf_iff_prefix.mp hp
      rw [← ht]
      simp
    · cases hr : splitAtFirst pat cs with
      | none => rw [hr] at h; cases h
      | some r =>
        rw [hr] at h
        simp only [Option.map_some', Option.some.injEq, Prod.mk.injEq] at h
        obtain ⟨rfl, rfl⟩ := h
        have := ih r.1 hr
        simp [this]

theorem jsReplace_of_split (html pat rep before after : Str)
    (hsplit : splitAtFirst pat html = some (before, after)) (hrep : '$' ∉ rep) :
    jsReplace html pat rep = before ++ rep ++ after := by
  simp only [jsReplace, hsplit, getSubstitution_of_no_dollar _ _ _ _ hrep]

theorem getSearch_of_compiled (html : Str) (repo : Repo) (c : Str) (items : List PatternItem)
    (h : compileTerm (toLowerCase c) = some items) :
    getSearch (some html) repo (some c) =
      some (.sent
        { status := 200
          body := jsReplace html "<!--ADS_CITY_SEARCH-->".toList
            (resultHtml (toLowerCase c) (findByCity items repo)) }) := by
  simp only [getSearch, h]

theorem lookup_eq_none {α : Type} (grouped : Buckets α) (key : Str)
    (h : grouped.lookup key = none) : ∀ kv ∈ grouped, kv.1 ≠ key := by
  induction grouped with
  | nil => intro kv hkv; cases hkv
  | cons x xs ih =>
    obtain ⟨k, items⟩ := x
    intro kv hkv
    by_cases hk : key = k
    · subst hk
      simp [List.lookup] at h
    · have hb : (key == k) = false := by simpa using hk
      rw [List.lookup, hb] at h
      rcases List.mem_cons.mp hkv with e | e
      · subst e; exact fun e' => hk e'.symm
      · exact ih h kv e

theorem fillBuckets_of_safe {α : Type} (item : Ad → α) (ads : List Ad) (grouped : Buckets α)
    (hsafe : ∀ ad ∈ ads, toLowerCase ad.category ∉ objectPrototypeKeys) :
    fillBuckets item ads grouped =
      .ok (grouped.map (fun kv => (kv.1, kv.2 ++ (adsOfCategory ads kv.1).map item))) := by
  induction ads generalizing grouped with
  | nil => simp [fillBuckets, adsOfCategory]
  | cons ad rest ih =>
    have hrest : ∀ a ∈ rest, toLowerCase a.category ∉ objectPrototypeKeys :=
      fun a ha => hsafe a (List.mem_cons_of_mem _ ha)
    have had := hsafe ad (List.mem_cons_self _ _)
    unfold fillBuckets pushIfPresent getProperty
    cases hl : grouped.lookup (toLowerCase ad.category) with
    | some items =>
      simp only []
      rw [ih _ hrest, List.map_map]
      congr 1
      apply List.map_congr_left
      intro kv _
      by_cases hk : kv.1 = toLowerCase ad.category
      · simp [adsOfCategory, List.filter_cons, hk]
      · have hk' : ¬ toLowerCase ad.category = kv.1 := fun e => hk e.symm
        simp [adsOfCategory, List.filter_cons, hk, hk']
    | none =>
      simp only [had, if_false]
      rw [ih _ hrest]
      congr 1
      apply List.map_congr_left
      intro kv hkv
      have hk : ¬ toLowerCase ad.category = kv.1 :=
        fun e => lookup_eq_none grouped _ hl kv hkv e.symm
      simp [adsOfCategory, List.filter_cons, hk]

/-- For a list in which no lower-cased category is a property name inherited from
`Object.prototype`, `GET /ads` succeeds and the bucket of each key holds exactly
the ads whose lower-cased category is that key, in the order of the list. -/
theorem getAds_of_safe (html : Str) (ads : List Ad)
    (hsafe : ∀ ad ∈ ads, toLowerCase ad.category ∉ objectPrototypeKeys) :
    getAds (some html) ads =
      { status := 200
        body := spliceAds (adsKeys.map (fun k => (k, adsOfCategory ads k))) html } := by
  unfold getAds
  simp only [fillBuckets_of_safe id ads _ hsafe, emptyBuckets, List.map_map]
  congr 2
  apply List.map_congr_left
  intro k _
  simp

/-- For a list in which no lower-cased category is a property name inherited from
`Object.prototype`, `GET /` succeeds and the bucket of each key holds exactly the
fragments of the ads whose lower-cased category is that key, in the order of the
list. -/
theorem getHome_of_safe (html : Str) (ads : List Ad)
    (hsafe : ∀ ad ∈ ads, toLowerCase ad.category ∉ objectPrototypeKeys) :
    getHome (some html) ads =
      { status := 200
        body := spliceHome
          (homeKeys.map (fun k => (k, (adsOfCategory ads k).map homeFragment))) html } := by
  unfold getHome
  simp only [fillBuckets_of_safe homeFragment ads _ hsafe, emptyBuckets, List.map_map]
  rfl

/-- C4: for every string `s`, `escapeHtml s` is the entity substitution of the
specification and contains no `<script>`; the per-ad fragments of `GET /`,
`GET /ads` and `GET /search` and the search header place the ad's fields and the
(lower-cased) search term only through `escapeHtml`; the three routes splice
exactly these fragments into the template (verbatim when the spliced text holds
no `$`), as the three sample pages show; and when `s` contains `<script>`, the
escaped text and every fragment or header built from `s` contain
`&lt;script&gt;`. -/
theorem escapeHtml_guards_fragments (s : Str) :
    escapeHtml s = escapeHtmlSpec s ∧
    ¬ scriptTag <:+: escapeHtml s ∧
    ¬ scriptTag <:+: escapeHtml (toLowerCase s) ∧
    (∀ ad : Ad, homeFragment ad =
      homeLayout ad.imageUrl (escapeHtml ad.phone) (escapeHtml ad.city)
        (escapeHtml (ad.address.getD []))) ∧
    (∀ ad : Ad, adsFragment ad =
      adLayout ad.imageUrl (escapeHtml ad.phone) (escapeHtml ad.city)
        (escapeHtml (ad.address.getD [])) (escapeHtml ad.category)) ∧
    (∀ ad : Ad, searchFragment ad =
      adLayout ad.imageUrl (escapeHtml ad.phone) (escapeHtml ad.city)
        (escapeHtml (ad.address.getD [])) (escapeHtml ad.category)) ∧
    (∀ term : Str, searchHeader term =
      "<h2>Results for \"".toList ++ escapeHtml term ++ "\"</h2>".toList) ∧
    (∀ bucket : List Ad, adsHtml bucket =
      "<div style=\"width: 100%;\">".toList ++ bucket.flatMap adsFragment ++
        "</div>".toList) ∧
    (∀ (term : Str) (ads : List Ad), resultHtml term ads =
      searchHeader term ++
        (if ads = [] then "<p>Sorry, there are no ads from this city.</p>".toList
         else ads.flatMap searchFragment)) ∧
    (∀ (html : Str) (ads : List Ad),
      (∀ ad ∈ ads, toLowerCase ad.category ∉ objectPrototypeKeys) →
      getAds (some html) ads =
        { status := 200
          body := (adsKeys.map (fun k => (k, adsOfCategory ads k))).foldl
            (fun acc kv => jsReplace acc (marker kv.1) (adsHtml kv.2)) html }) ∧
    (∀ (html : Str) (ads : List Ad),
      (∀ ad ∈ ads, toLowerCase ad.category ∉ objectPrototypeKeys) →
      getHome (some html) ads =
        { status := 200
          body := (homeKeys.map (fun k => (k, (adsOfCategory ads k).map homeFragment))).foldl
            (fun acc kv => jsReplace acc (marker kv.1) (join ['\n'] kv.2)) html }) ∧
    (∀ (html : Str) (repo : Repo) (c : Str) (items : List PatternItem),
      compileTerm (toLowerCase c) = some items →
      getSearch (some html) repo (some c) =
        some (.sent
          { status := 200
            body := jsReplace html "<!--ADS_CITY_SEARCH-->".toList
              (resultHtml (toLowerCase c) (findByCity items repo)) })) ∧
    (∀ html pat rep before after : Str,
      splitAtFirst pat html = some (before, after) → '$' ∉ rep →
      html = before ++ pat ++ after ∧ jsReplace html pat rep = before ++ rep ++ after) ∧
    getHome (some foodTemplate) [scriptAd, bostonAd] =
      { status := 200
        body := "<main>\n        <div class=\"ad\">\n          <img src=\"\" />\n          <p><strong>Phone:</strong> +15551234567</p>\n          <p><strong>City:</strong> &lt;script&gt;</p>\n          <p><strong>Address:</strong> </p>\n        </div>\n      \n\n        <div class=\"ad\">\n          <img src=\"\" />\n          <p><strong>Phone:</strong> +15557654321</p>\n          <p><strong>City:</strong> Boston</p>\n          <p><strong>Address:</strong> </p>\n        </div>\n      </main>".toList } ∧
    getAds (some foodTemplate) [bostonAd, scriptAd] =
      { status := 200
        body := "<main><div style=\"width: 100%;\">\n          <div class=\"ad\">\n            <img src=\"\" />\n            <p><strong>Phone:</strong> +15557654321</p>\n            <p><strong>City:</strong> Boston</p>\n            <p><strong>Address:</strong> </p>\n            <p><strong>Group:</strong> food</p>\n          </div>\n        \n          <div class=\"ad\">\n            <img src=\"\" />\n            <p><strong>Phone:</strong> +15551234567</p>\n            <p><strong>City:</strong> &lt;script&gt;</p>\n            <p><strong>Address:</strong> </p>\n            <p><strong>Group:</strong> Food</p>\n          </div>\n        </div></main>".toList } ∧
    getSearch (some searchTemplate) [bostonAd, scriptAd] (some "<SCRIPT>".toList) =
      some (.sent
        { status := 200
          body := "<main><h2>Results for \"&lt;script&gt;\"</h2>\n          <div class=\"ad\">\n            <img src=\"\" />\n            <p><strong>Phone:</strong> +15551234567</p>\n            <p><strong>City:</strong> &lt;script&gt;</p>\n            <p><strong>Address:</strong> </p>\n            <p><strong>Group:</strong> Food</p>\n          </div>\n        </main>".toList }) ∧
    (scriptTag <:+: s →
      escapedScriptTag <:+: escapeHtml s ∧
      (∀ ad : Ad, ad.phone = s ∨ ad.city = s ∨ ad.address = some s →
        escapedScriptTag <:+: homeFragment ad) ∧
      (∀ ad : Ad, ad.phone = s ∨ ad.city = s ∨ ad.address = some s ∨ ad.category = s →
        escapedScriptTag <:+: adsFragment ad ∧ escapedScriptTag <:+: searchFragment ad) ∧
      escapedScriptTag <:+: searchHeader (toLowerCase s)) := by
  refine ⟨escapeHtml_eq_spec s, scriptTag_not_infix_escapeHtml s,
    scriptTag_not_infix_escapeHtml _, fun _ => ?_, fun _ => ?_, fun _ => ?_, fun _ => rfl,
    fun _ => rfl, ?_, ?_, ?_, ?_, ?_, by rfl, by rfl, by rfl, ?_⟩
  · simp only [homeFragment, homeLayout, List.append_assoc]
  · simp only [adsFragment, adLayout, List.append_assoc]
  · simp only [searchFragment, adLayout, List.append_assoc]
  · intro term ads
    cases ads with
    | nil => rfl
    | cons a rest => simp [resultHtml]
  · intro html ads hsafe
    rw [getAds_of_safe html ads hsafe]
    rfl
  · intro html ads hsafe
    rw [getHome_of_safe html ads hsafe]
    rfl
  · intro html repo c items h
    exact getSearch_of_compiled html repo c items h
  · intro html pat rep before after hsplit hrep
    exact ⟨splitAtFirst_sound pat html before after hsplit,
      jsReplace_of_split html pat rep before after hsplit hrep⟩
  intro hs
  have hesc := escapedScriptTag_infix s hs
  refine ⟨hesc, ?_, ?_, ?_⟩
  · intro ad h
    have : homeFragment ad = homeLayout ad.imageUrl (escapeHtml ad.phone)
        (escapeHtml ad.city) (escapeHtml (ad.address.getD [])) := by
      simp only [homeFragment, homeLayout, List.append_assoc]
    rw [this]
    apply infix_homeLayout
    rcases h with h | h | h
    · exact Or.inl (h ▸ hesc)
    · exact Or.inr (Or.inl (h ▸ hesc))
    · refine Or.inr (Or.inr ?_)
      rw [h]
      exact hesc
  · intro ad h
    have key : escapedScriptTag <:+: adLayout ad.imageUrl (escapeHtml ad.phone)
        (escapeHtml ad.city) (escapeHtml (ad.address.getD [])) (escapeHtml ad.category) := by
      apply infix_adLayout
      rcases h with h | h | h | h
      · exact Or.inl (h ▸ hesc)
      · exact Or.inr (Or.inl (h ▸ hesc))
      · refine Or.inr (Or.inr (Or.inl ?_))
        rw [h]
        exact hesc
      · exact Or.inr (Or.inr (Or.inr (h ▸ hesc)))
    constructor
    · have : adsFragment ad = adLayout ad.imageUrl (escapeHtml ad.phone)
          (escapeHtml ad.city) (escapeHtml (ad.address.getD [])) (escapeHtml ad.category) := by
        simp only [adsFragment, adLayout, List.append_assoc]
      rw [this]; exact key
    · have : searchFragment ad = adLayout ad.imageUrl (escapeHtml ad.phone)
          (escapeHtml ad.city) (escapeHtml (ad.address.getD [])) (escapeHtml ad.category) := by
        simp only [searchFragment, adLayout, List.append_assoc]
      rw [this]; exact key
  · have hlow : scriptTag <:+: toLowerCase s := by
      have := toLowerCase_infix scriptTag s hs
      have e : toLowerCase scriptTag = scriptTag := by decide
      rwa [e] at this
    obtain ⟨a, b, hab⟩ := escapedScriptTag_infix _ hlow
    exact ⟨"<h2>Results for \"".toList ++ a, b ++ "\"</h2>".toList, by
      simp only [searchHeader, ← hab, List.append_assoc]⟩

theorem escapeHtml_guards_fragments_witness :
    escapeHtml "<script>alert(1)</script>".toList
        = "&lt;script&gt;alert(1)&lt;/script&gt;".toList ∧
      escapedScriptTag <:+: searchFragment
        { phone := "+15551234567".toList, city := "<script>alert(1)</script>".toList,
          address := none, category := "food".toList, imageUrl := [], createdAt := 1 } ∧
      escapedScriptTag <:+: searchHeader (toLowerCase "<script>alert(1)</script>".toList) :=
  have h := (escapeHtml_guards_fragments "<script>alert(1)</script>".toList).2.2.2.2.2.2.2.2.2.2.2.2.2.2.2.2
    ⟨[], "alert(1)</script>".toList, rfl⟩
  ⟨by decide, (h.2.2.1 _ (Or.inr (Or.inl rfl))).2, h.2.2.2⟩

/-! ## Theorems: sanitizing at write time and escaping at render time -/

theorem replaceAll_append (c : Char) (rep a b : Str) :
    replaceAll c rep (a ++ b) = replaceAll c rep a ++ replaceAll c rep b := by
  induction a with
  | nil => rfl
  | cons x xs ih =>
    show (if x = c then rep else [x]) ++ replaceAll c rep (xs ++ b)
      = ((if x = c then rep else [x]) ++ replaceAll c rep xs) ++ replaceAll c rep b
    rw [ih, List.append_assoc]

theorem escape_append (a b : Str) : escape (a ++ b) = escape a ++ escape b := by
  simp only [escape, replaceAll_append]

theorem escape_cons (c : Char) (cs : Str) : escape (c :: cs) = escape [c] ++ escape cs :=
  escape_append [c] cs

theorem escape_singleton (c : Char) (h : escapedAtWrite c = false) : escape [c] = [c] := by
  simp only [escapedAtWrite, Bool.or_eq_false_iff, beq_eq_false_iff_ne, ne_eq] at h
  obtain ⟨⟨⟨⟨⟨⟨⟨h1, h2⟩, h3⟩, h4⟩, h5⟩, h6⟩, h7⟩, h8⟩ := h
  simp [escape, replaceAll, h1, h2, h3, h4, h5, h6, h7, h8]

theorem escapedAtWrite_of_escapeClass (c : Char) (h : escapeClass c = true) :
    escapedAtWrite c = true := by
  simp only [escapeClass, Bool.or_eq_true, beq_iff_eq] at h
  rcases h with (((h | h) | h) | h) | h <;> subst h <;> decide

theorem not_isWhitespace_of_escapeClass (c : Char) (h : escapeClass c = true) :
    isWhitespace c = false := by
  simp only [escapeClass, Bool.or_eq_true, beq_iff_eq] at h
  rcases h with (((h | h) | h) | h) | h <;> subst h <;> decide

theorem length_escapeHtml_escape_singleton (c : Char) :
    (escapeHtml [c]).length ≤ (escapeHtml (escape [c])).length ∧
      (escapeClass c = true → (escapeHtml [c]).length < (escapeHtml (escape [c])).length) := by
  by_cases hw : escapedAtWrite c = true
  · simp only [escapedAtWrite, Bool.or_eq_true, beq_iff_eq] at hw
    rcases hw with ((((((h | h) | h) | h) | h) | h) | h) | h <;> subst h <;> decide
  · have hw' : escapedAtWrite c = false := by simpa using hw
    rw [escape_singleton c hw']
    refine ⟨le_refl _, fun hc => ?_⟩
    rw [escapedAtWrite_of_escapeClass c hc] at hw'
    cases hw'

theorem length_escapeHtml_escape (t : Str) :
    (escapeHtml t).length ≤ (escapeHtml (escape t)).length ∧
      ((∃ c ∈ t, escapeClass c = true) →
        (escapeHtml t).length < (escapeHtml (escape t)).length) := by
  induction t with
  | nil => exact ⟨le_refl _, fun ⟨c, hc, _⟩ => by cases hc⟩
  | cons x xs ih =>
    have hx := length_escapeHtml_escape_singleton x
    have e1 : escapeHtml (x :: xs) = escapeHtml [x] ++ escapeHtml xs := escapeHtml_append [x] xs
    have e2 : escapeHtml (escape (x :: xs))
        = escapeHtml (escape [x]) ++ escapeHtml (escape xs) := by
      rw [escape_cons, escapeHtml_append]
    rw [e1, e2, List.length_append, List.length_append]
    refine ⟨by omega, ?_⟩
    rintro ⟨c, hc, hcls⟩
    rcases List.mem_cons.mp hc with h | h
    · subst h
      have := hx.2 hcls
      omega
    · have := ih.2 ⟨c, h, hcls⟩
      omega

theorem mem_dropWhile_of_false (p : Char → Bool) (l : Str) (c : Char) (hc : c ∈ l)
    (hp : p c = false) : c ∈ l.dropWhile p := by
  induction l with
  | nil => cases hc
  | cons x xs ih =>
    rw [List.dropWhile_cons]
    by_cases hx : p x = true
    · rw [if_pos hx]
      rcases List.mem_cons.mp hc with h | h
      · subst h; rw [hp] at hx; cases hx
      · exact ih h
    · rw [if_neg hx]; exact hc

theorem mem_trim (v : Str) (c : Char) (hc : c ∈ v) (hw : isWhitespace c = false) :
    c ∈ trim v := by
  unfold trim
  rw [List.mem_reverse]
  apply mem_dropWhile_of_false _ _ _ _ hw
  rw [List.mem_reverse]
  exact mem_dropWhile_of_false _ _ _ hc hw

theorem trim_subset (v : Str) (c : Char) (hc : c ∈ trim v) : c ∈ v := by
  unfold trim at hc
  rw [List.mem_reverse] at hc
  have h1 := List.dropWhile_subset isWhitespace hc
  rw [List.mem_reverse] at h1
  exact List.dropWhile_subset isWhitespace h1

theorem escape_eq_self (t : Str) (h : ∀ c ∈ t, escapedAtWrite c = false) : escape t = t := by
  induction t with
  | nil => rfl
  | cons x xs ih =>
    rw [escape_cons, escape_singleton x (h x (List.mem_cons_self _ _)),
      ih (fun c hc => h c (List.mem_cons_of_mem _ hc))]
    rfl

theorem escapeHtml_eq_self (t : Str) (h : ∀ c ∈ t, escapeClass c = false) :
    escapeHtml t = t := by
  induction t with
  | nil => rfl
  | cons x xs ih =>
    rw [escapeHtml_cons, ih (fun c hc => h c (List.mem_cons_of_mem _ hc))]
    have hx := h x (List.mem_cons_self _ _)
    simp only [escapeClass, Bool.or_eq_false_iff, beq_eq_false_iff_ne, ne_eq] at hx
    obtain ⟨⟨⟨⟨h1, h2⟩, h3⟩, h4⟩, h5⟩ := hx
    simp [entityOfSpec, h1, h2, h3, h4, h5]

theorem escapeHtml_escape_ne (t : Str) (h : ∃ c ∈ t, escapeClass c = true) :
    escapeHtml (escape t) ≠ escapeHtml t := by
  intro e
  have := (length_escapeHtml_escape t).2 h
  rw [e] at this
  exact lt_irrefl _ this

/-- An accepted submission stores the trimmed and entity-escaped city, address and
group, and each per-ad fragment applies `escapeHtml` to the stored value: the
text placed in the fragment for a field `v` is `escapeHtml (escape (trim v))`.
For `v` containing one of the five characters this differs from
`escapeHtml (trim v)`; for `v` without any character rewritten at write time it
equals `trim v`. -/
theorem fragment_field_escaped_twice (env : Env) (repo : Repo) (req : SubmitRequest)
    (file : Option Str) (v : Str)
    (hupload : uploadSingle env req.file = .ok file)
    (hvalid : env.isMobilePhone (trim req.body.phone) = true)
    (hcount : countDocuments repo (trim req.body.phone) < 2) :
    (∃ ad : Ad, (postSubmit env repo req).2 = repo ++ [ad] ∧
      ad.city = escape (trim req.body.city) ∧
      ad.address = req.body.address.map (fun a => escape (trim a)) ∧
      ad.category = escape (trim req.body.group) ∧
      homeFragment ad = homeLayout ad.imageUrl (escapeHtml ad.phone)
        (escapeHtml (escape (trim req.body.city)))
        ((req.body.address.map (fun a => escapeHtml (escape (trim a)))).getD []) ∧
      adsFragment ad = adLayout ad.imageUrl (escapeHtml ad.phone)
        (escapeHtml (escape (trim req.body.city)))
        ((req.body.address.map (fun a => escapeHtml (escape (trim a)))).getD [])
        (escapeHtml (escape (trim req.body.group))) ∧
      searchFragment ad = adLayout ad.imageUrl (escapeHtml ad.phone)
        (escapeHtml (escape (trim req.body.city)))
        ((req.body.address.map (fun a => escapeHtml (escape (trim a)))).getD [])
        (escapeHtml (escape (trim req.body.group)))) ∧
    ((∃ c ∈ v, escapeClass c = true) →
      escapeHtml (escape (trim v)) ≠ escapeHtml (trim v)) ∧
    ((∀ c ∈ v, escapedAtWrite c = false) → escapeHtml (escape (trim v)) = trim v) ∧
    escapeHtml (escape (trim "a&b".toList)) = "a&amp;amp;b".toList := by
  refine ⟨⟨_, congrArg Prod.snd (postSubmit_accepted env repo req file hupload hvalid hcount),
    rfl, rfl, rfl, ?_, ?_, ?_⟩, ?_, ?_, by decide⟩
  · cases h : req.body.address <;> rfl
  · cases h : req.body.address <;> rfl
  · cases h : req.body.address <;> rfl
  · rintro ⟨c, hc, hcls⟩
    exact escapeHtml_escape_ne _
      ⟨c, mem_trim v c hc (not_isWhitespace_of_escapeClass c hcls), hcls⟩
  · intro h
    have ht : ∀ c ∈ trim v, escapedAtWrite c = false := fun c hc => h c (trim_subset v c hc)
    rw [escape_eq_self _ ht]
    apply escapeHtml_eq_self
    intro c hc
    by_contra hcls
    have hcls' : escapeClass c = true := by simpa using hcls
    have := escapedAtWrite_of_escapeClass c hcls'
    rw [ht c hc] at this
    cases this

theorem fragment_field_escaped_twice_example :
    escapeHtml (escape (trim " Tom's <b> ".toList)) ≠ escapeHtml (trim " Tom's <b> ".toList) :=
  (fragment_field_escaped_twice sampleEnv [] (sampleRequest "+15551234567" "a&b" "food") none
    " Tom's <b> ".toList (by rfl) (by decide) (by decide)).2.1 ⟨'<', by decide, by decide⟩

/-! ## Theorems: the grouped routes -/

theorem adsOfCategory_knownAds (ads : List Ad) (key : Str) (hkey : key ∈ knownCategories) :
    adsOfCategory (knownAds ads) key = adsOfCategory ads key := by
  unfold adsOfCategory knownAds
  rw [List.filter_filter]
  apply List.filter_congr
  intro ad _
  by_cases h : toLowerCase ad.category = key
  · simp [h, hkey]
  · simp [h]

/-- For a list in which no lower-cased category is a property name inherited from
`Object.prototype`, both grouped routes answer as for the list with the ads of
unknown categories removed. -/
theorem grouped_routes_ignore_unknown (html : Str) (ads : List Ad)
    (hsafe : ∀ ad ∈ ads, toLowerCase ad.category ∉ objectPrototypeKeys) :
    getAds (some html) ads = getAds (some html) (knownAds ads) ∧
      getHome (some html) ads = getHome (some html) (knownAds ads) := by
  have hsafe' : ∀ ad ∈ knownAds ads, toLowerCase ad.category ∉ objectPrototypeKeys :=
    fun ad had => hsafe ad (List.mem_of_mem_filter had)
  rw [getAds_of_safe html ads hsafe, getAds_of_safe html _ hsafe',
    getHome_of_safe html ads hsafe, getHome_of_safe html _ hsafe']
  constructor
  · congr 2
    apply List.map_congr_left
    intro k hk
    rw [adsOfCategory_knownAds ads k (by simpa [adsKeys, knownCategories] using hk)]
  · congr 2
    apply List.map_congr_left
    intro k hk
    have hk' : k ∈ knownCategories := by
      simp only [homeKeys, List.mem_cons, List.mem_singleton, List.not_mem_nil, or_false] at hk
      simp only [knownCategories, List.mem_cons, List.mem_singleton, List.not_mem_nil, or_false]
      tauto
    rw [adsOfCategory_knownAds ads k hk']

/-- C5 at the failing input: an ad whose category is `constructor` (not one of the
nine keys) is not silently excluded; both grouped routes answer 500, while for
the list with that ad removed they answer 200. -/
theorem grouped_routes_fail_on_constructor :
    toLowerCase "constructor".toList ∉ knownCategories ∧
    ∀ html : Str,
      getHome (some html) [sampleAd "+15551234567" "NYC" "constructor"]
        = { status := 500, body := "<h2>Failed to load homepage</h2>".toList } ∧
      getAds (some html) [sampleAd "+15551234567" "NYC" "constructor"]
        = { status := 500, body := "<h2>Failed to load ads</h2>".toList } ∧
      (getHome (some html) (knownAds [sampleAd "+15551234567" "NYC" "constructor"])).status
        = 200 ∧
      (getAds (some html) (knownAds [sampleAd "+15551234567" "NYC" "constructor"])).status
        = 200 :=
  ⟨by decide, fun _ => ⟨rfl, rfl, rfl, rfl⟩⟩

/-- C9 at the failing input: with an ad of category `constructor` in the list, the
ad of category `food` is spliced into no fragment; both grouped routes answer
500 instead of the page. -/
theorem grouped_routes_drop_food_ad :
    ∀ html : Str,
      getAds (some html)
          [ { sampleAd "+15551234567" "NYC" "constructor" with createdAt := 1 },
            { sampleAd "+15557654321" "Boston" "Food" with createdAt := 2 } ]
        = { status := 500, body := "<h2>Failed to load ads</h2>".toList } ∧
      getHome (some html)
          [ { sampleAd "+15557654321" "Boston" "Food" with createdAt := 2 },
            { sampleAd "+15551234567" "NYC" "constructor" with createdAt := 1 } ]
        = { status := 500, body := "<h2>Failed to load homepage</h2>".toList } :=
  fun _ => ⟨rfl, rfl⟩

/-! ## Theorems: `GET /search` -/

theorem toLower_toLower (c : Char) : c.toLower.toLower = c.toLower := by
  by_cases h : 65 ≤ c.toNat ∧ c.toNat ≤ 90
  · have hc : c = Char.ofNat c.toNat := (Char.ofNat_toNat c).symm
    obtain ⟨h1, h2⟩ := h
    generalize c.toNat = n at hc h1 h2
    subst hc
    interval_cases n <;> decide
  · have e : c.toLower = c := by
      unfold Char.toLower
      simp only [ge_iff_le]
      rw [if_neg h]
    rw [e, e]

theorem toLowerCase_idem (s : Str) : toLowerCase (toLowerCase s) = toLowerCase s := by
  simp [toLowerCase, Function.comp_def, toLower_toLower]

theorem compileTerm_literal (l : Str) (h : ∀ ch ∈ l, isSyntaxCharacter ch = false) :
    compileTerm l = some (l.map PatternItem.char) := by
  induction l with
  | nil => rfl
  | cons c cs ih =>
    have hc := h c (List.mem_cons_self _ _)
    have hdot : c ≠ '.' := by
      intro e
      subst e
      revert hc
      decide
    simp [compileTerm, hdot, hc, ih (fun ch hch => h ch (List.mem_cons_of_mem _ hch))]

theorem matchesWhole_literal (l city : Str) :
    matchesWhole (l.map PatternItem.char) city = decide (toLowerCase l = toLowerCase city) := by
  induction l generalizing city with
  | nil => cases city <;> simp [matchesWhole, toLowerCase]
  | cons c cs ih =>
    cases city with
    | nil => simp [matchesWhole, toLowerCase]
    | cons d ds =>
      simp only [List.map_cons, matchesWhole, itemMatches, ih]
      by_cases e : c.toLower = d.toLower
      · simp [toLowerCase, e]
      · simp [toLowerCase, e]

/-- For a search term without regular-expression syntax characters, `GET /search`
renders exactly the ads whose city equals the term up to letter case, in the
collection's order. -/
theorem getSearch_of_literal (html : Str) (repo : Repo) (c : Str)
    (hlit : ∀ ch ∈ toLowerCase c, isSyntaxCharacter ch = false) :
    getSearch (some html) repo (some c) =
      some (.sent
        { status := 200
          body := jsReplace html "<!--ADS_CITY_SEARCH-->".toList
            (resultHtml (toLowerCase c)
              (repo.filter (fun ad => decide (toLowerCase ad.city = toLowerCase c)))) }) := by
  have hfind : findByCity ((toLowerCase c).map PatternItem.char) repo
      = repo.filter (fun ad => decide (toLowerCase ad.city = toLowerCase c)) := by
    unfold findByCity
    apply List.filter_congr
    intro ad _
    rw [matchesWhole_literal, toLowerCase_idem]
    by_cases e : toLowerCase c = toLowerCase ad.city
    · simp [e]
    · have e' : ¬ toLowerCase ad.city = toLowerCase c := fun h => e h.symm
      simp [e, e']
  simp only [getSearch, compileTerm_literal _ hlit, hfind]

/-- C6 at the failing input: the search term `a.c` renders the ad whose city is
`abc`, although `abc` does not equal `a.c` up to letter case. -/
theorem getSearch_dot_matches_other_city :
    ¬ eqIgnoreCase "abc".toList "a.c".toList ∧
    ∀ html : Str,
      getSearch (some html) [sampleAd "+15551234567" "abc" "food"] (some "a.c".toList) =
        some (.sent
          { status := 200
            body := jsReplace html "<!--ADS_CITY_SEARCH-->".toList
              (resultHtml "a.c".toList [sampleAd "+15551234567" "abc" "food"]) }) :=
  ⟨by unfold eqIgnoreCase; decide, fun _ => rfl⟩

/-- C7 at the failing input: without the `city` query parameter the handler sends
no response at all; a `TypeError` escapes it, whatever the template and the
collection are. -/
theorem getSearch_missing_city_throws :
    ∀ (template : Option Str) (repo : Repo),
      getSearch template repo none =
        some (.uncaught
          "TypeError: Cannot read properties of undefined (reading 'toLowerCase')".toList) ∧
      ∀ response : Response, getSearch template repo none ≠ some (.sent response) :=
  fun _ _ => ⟨rfl, fun _ h => by cases h⟩

/-! ## Theorems: the upload filter -/

/-- A file rejected by `fileFilter` ends the request with the upload error, and
the collection is unchanged. -/
theorem postSubmit_rejected_file (env : Env) (repo : Repo) (req : SubmitRequest)
    (f : UploadedFile) (hfile : req.file = some f) (hreject : fileFilter f = false) :
    postSubmit env repo req = (uploadErrorResponse fileFilterError, repo) := by
  simp [postSubmit, uploadSingle, hfile, hreject]

/-- C8 at the failing input: a file named `photo.pngx` with MIME type `image/png`
is accepted by `fileFilter`, although its extension `.pngx` is none of `.jpeg`,
`.jpg`, `.png`, `.gif`; the submission goes on to persist an ad. -/
theorem fileFilter_accepts_pngx :
    toLowerCase (extname "photo.pngx".toList) = ".pngx".toList ∧
    toLowerCase (extname "photo.pngx".toList) ∉ allowedExtensions ∧
    fileFilter { originalname := "photo.pngx".toList, mimetype := "image/png".toList,
                 size := 1024 } = true ∧
    postSubmit sampleEnv []
        { body := { phone := "+15551234567".toList, city := "NYC".toList, address := none,
                    group := "food".toList }
          file := some { originalname := "photo.pngx".toList, mimetype := "image/png".toList,
                         size := 1024 } }
      = (submittedResponse,
          [{ phone := "+15551234567".toList, city := "NYC".toList, address := none,
             category := "food".toList,
             imageUrl := "https://res.cloudinary.com/demo/a.png".toList,
             createdAt := 1000 }]) := by
  refine ⟨by decide, by decide, by decide, by decide⟩

/-! ## Theorems: the template splice -/

/-- C10 at the failing input: a city (or address) submitted as `$$` holds no
character rewritten at write time and is stored as `$$`, so the claim's rendered
text is `$$`; the pages of `GET /`, `GET /ads` and `GET /search` show `$`,
because `replace` expands `$$` in the spliced fragment. -/
theorem routes_render_dollar_pair_as_one :
    (∀ c ∈ "$$".toList, escapedAtWrite c = false) ∧
    trim "$$".toList = "$$".toList ∧
    escapeHtml (escape (trim "$$".toList)) = "$$".toList ∧
    (postSubmit sampleEnv [] (sampleRequest "+15551234567" "$$" "food")).2 = [dollarCityAd] ∧
    (postSubmit sampleEnv []
        { body := { phone := "+15551234567".toList, city := "NYC".toList,
                    address := some "$$".toList, group := "food".toList }
          file := none }).2 = [dollarAddressAd] ∧
    getHome (some foodTemplate) [dollarCityAd] =
      { status := 200
        body := "<main>\n        <div class=\"ad\">\n          <img src=\"\" />\n          <p><strong>Phone:</strong> +15551234567</p>\n          <p><strong>City:</strong> $</p>\n          <p><strong>Address:</strong> </p>\n        </div>\n      </main>".toList } ∧
    getAds (some foodTemplate) [dollarCityAd] =
      { status := 200
        body := "<main><div style=\"width: 100%;\">\n          <div class=\"ad\">\n            <img src=\"\" />\n            <p><strong>Phone:</strong> +15551234567</p>\n            <p><strong>City:</strong> $</p>\n            <p><strong>Address:</strong> </p>\n            <p><strong>Group:</strong> food</p>\n          </div>\n        </div></main>".toList } ∧
    getSearch (some searchTemplate) [dollarAddressAd] (some "nyc".toList) =
      some (.sent
        { status := 200
          body := "<main><h2>Results for \"nyc\"</h2>\n          <div class=\"ad\">\n            <img src=\"\" />\n            <p><strong>Phone:</strong> +15551234567</p>\n            <p><strong>City:</strong> NYC</p>\n            <p><strong>Address:</strong> $</p>\n            <p><strong>Group:</strong> food</p>\n          </div>\n        </main>".toList }) ∧
    ¬ "$$".toList <:+: (getHome (some foodTemplate) [dollarCityAd]).body ∧
    ¬ "$$".toList <:+: (getAds (some foodTemplate) [dollarCityAd]).body := by
  refine ⟨by decide, by decide, by decide, by decide, by decide, by rfl, by rfl, by rfl,
    by decide, by decide⟩

end FreeAd
